import Mathlib

/-!
# ELM37 OBD-II reader: command/response engine and PID decoder

A shallow embedding of `elm37-reader.go` (`SendCommand`, `ReadOBDData`,
`ParseOBDResponse`, `ConvertPIDValue`) together with the Go standard-library
functions they call (`strconv.ParseInt`, `strings.Split`, `strings.TrimSpace`,
`strings.Fields`, `strings.Join`, `fmt.Sprintf` with `%d` and `%.0f`).

Go strings are modelled as lists of Unicode code points (well-formed UTF-8
text); `len` counts the bytes of the UTF-8 encoding.
-/

namespace ELM37

/-! ## Strings -/

/-- A Go string holding well-formed UTF-8 text, as its list of code points. -/
abbrev GoString := List Char

/-- Go `len(s)`: the number of bytes of the UTF-8 encoding of `s`. -/
def goLen (s : GoString) : Nat :=
  (s.map Char.utf8Size).sum

/-- Go `unicode.IsSpace`: tab, LF, VT, FF, CR, space, NEL, NBSP and the
Unicode `White_Space` code points above Latin-1. -/
def isSpace (c : Char) : Bool :=
  let n := c.toNat
  decide ((0x09 ≤ n ∧ n ≤ 0x0D) ∨ n = 0x20 ∨ n = 0x85 ∨ n = 0xA0 ∨ n = 0x1680 ∨
    (0x2000 ≤ n ∧ n ≤ 0x200A) ∨ n = 0x2028 ∨ n = 0x2029 ∨ n = 0x202F ∨
    n = 0x205F ∨ n = 0x3000)

/-- Go `strings.TrimSpace`: drop leading and trailing white space. -/
def trimSpace (s : GoString) : GoString :=
  (s.dropWhile isSpace).rdropWhile isSpace

/-- Loop of `strings.Fields`: `cur` is the field being read (empty when the
scan is between fields). -/
def fieldsAux : GoString → GoString → List GoString
  | cur, [] => if cur = [] then [] else [cur]
  | cur, c :: cs =>
    if isSpace c then
      if cur = [] then fieldsAux [] cs else cur :: fieldsAux [] cs
    else fieldsAux (cur ++ [c]) cs

/-- Go `strings.Fields`: the maximal runs of non-space characters. -/
def fields (s : GoString) : List GoString :=
  fieldsAux [] s

/-- Go `strings.Split(s, "\n")`: the pieces between line feeds; always at
least one piece. -/
def splitLines : GoString → List GoString
  | [] => [[]]
  | c :: cs =>
    if c = '\n' then [] :: splitLines cs
    else
      match splitLines cs with
      | [] => [[c]]
      | l :: ls => (c :: l) :: ls

/-- Go `strings.Join(values, " ")`. -/
def joinSpace (values : List GoString) : GoString :=
  List.intercalate [' '] values

/-! ## `strconv.ParseInt` -/

/-- The `Err` field of a `*strconv.NumError`. -/
inductive NumErrKind
  | badSyntax
  | outOfRange
  deriving DecidableEq

/-- Go `lower(c)` of package strconv: `c | ('x' - 'X')` on a byte. -/
def lower (b : Nat) : Nat :=
  b ||| 0x20

/-- The digit switch of `strconv.ParseUint` (with `base0 = false`): the value
of a digit character, `none` for the `default` branch. A code point outside
ASCII is encoded by bytes `≥ 0x80`, none of which is a digit. -/
def digitVal (c : Char) : Option Nat :=
  let b := c.toNat
  if 0x30 ≤ b ∧ b ≤ 0x39 then some (b - 0x30)
  else if 0x61 ≤ lower b ∧ lower b ≤ 0x7A then some (lower b - 0x61 + 10)
  else none

/-- The digit loop of `strconv.ParseUint` on 64-bit unsigned arithmetic. -/
def parseUintLoop (base cutoff maxVal : Nat) : GoString → Nat → Nat × Option NumErrKind
  | [], n => (n, none)
  | c :: cs, n =>
    match digitVal c with
    | none => (0, some .badSyntax)
    | some d =>
      if base ≤ d then (0, some .badSyntax)
      else if cutoff ≤ n then (maxVal, some .outOfRange)
      else
        let m := (n * base) % 2 ^ 64
        let n1 := (m + d) % 2 ^ 64
        if n1 < m ∨ maxVal < n1 then (maxVal, some .outOfRange)
        else parseUintLoop base cutoff maxVal cs n1

/-- Go `strconv.ParseUint(s, base, bitSize)` for an explicit base `2..36`. -/
def ParseUint (s : GoString) (base bitSize : Nat) : Nat × Option NumErrKind :=
  if s = [] then (0, some .badSyntax)
  else parseUintLoop base ((2 ^ 64 - 1) / base + 1) (2 ^ bitSize - 1) s 0

/-- Go `strconv.ParseInt(s, base, bitSize)` for an explicit base `2..36`:
the value returned and the kind of the `NumError`, if any. -/
def ParseInt (s : GoString) (base bitSize : Nat) : Int × Option NumErrKind :=
  match s with
  | [] => (0, some .badSyntax)
  | c :: cs =>
    let neg := decide (c = '-')
    let body := if c = '+' ∨ c = '-' then cs else c :: cs
    match ParseUint body base bitSize with
    | (_, some .badSyntax) => (0, some .badSyntax)
    | (un, _) =>
      let cutoff := 2 ^ (bitSize - 1)
      if ¬ neg ∧ cutoff ≤ un then ((cutoff : Int) - 1, some .outOfRange)
      else if neg ∧ cutoff < un then (-(cutoff : Int), some .outOfRange)
      else if neg then (-(un : Int), none)
      else ((un : Int), none)

/-! ## Machine arithmetic and formatting -/

/-- Wrap-around of a mathematical integer into `int64`. -/
def wrap64 (x : Int) : Int :=
  (x + 2 ^ 63) % 2 ^ 64 - 2 ^ 63

/-- Number of bits of `m` (Go `bits.Len64`), for `m < 2 ^ fuel`. -/
def bitLen : Nat → Nat → Nat
  | 0, _ => 0
  | fuel + 1, m => if m = 0 then 0 else bitLen fuel (m / 2) + 1

/-- Go `float64(v)` for an `int64` `v`: the nearest IEEE-754 double (53-bit
significand, ties to even). The result is always an integer. -/
def float64OfInt64 (v : Int) : Int :=
  let m := v.natAbs
  let bits := bitLen 64 m
  if bits ≤ 53 then v
  else
    let shift := bits - 53
    let q := m / 2 ^ shift
    let r := m % 2 ^ shift
    let half := 2 ^ (shift - 1)
    let q1 := if half < r ∨ (r = half ∧ q % 2 = 1) then q + 1 else q
    if v < 0 then -((q1 * 2 ^ shift : Nat) : Int) else ((q1 * 2 ^ shift : Nat) : Int)

/-- Go `fmt.Sprintf("%d", n)` for an integer. -/
def fmtInt (n : Int) : GoString :=
  if n < 0 then '-' :: Nat.toDigits 10 n.natAbs else Nat.toDigits 10 n.toNat

/-- Go `fmt.Sprintf("%.0f", x / 4.0)` for a double `x` of integer value
(the division by four is exact): the quotient rounded to the nearest integer,
ties to even, with the sign of `x` printed even when the digits are `0`. -/
def fmtQuarterF0 (x : Int) : GoString :=
  let m := x.natAbs
  let q := m / 4
  let r := m % 4
  let n := if 2 < r ∨ (r = 2 ∧ q % 2 = 1) then q + 1 else q
  if x < 0 then '-' :: Nat.toDigits 10 n else Nat.toDigits 10 n

/-! ## Errors and results -/

/-- The errors the client produces. -/
inductive Err
  /-- `"bağlantı yok"`: no connection. -/
  | noConnection
  /-- `"komut gönderme hatası: %w"`: `WriteString` failed. -/
  | sendFailed (cause : GoString)
  /-- `"flush hatası: %w"`: `Flush` failed. -/
  | flushFailed (cause : GoString)
  /-- `"zaman aşımı"`: the command timed out. -/
  | timedOut
  /-- `"okuma hatası: %w"`: the scanner reported an error. -/
  | readFailed (cause : GoString)
  /-- `"geçersiz PID: %s"`: the PID code is not two bytes long. -/
  | invalidPID (pid : GoString)
  /-- `"PID yanıtı bulunamadı: %s"`: no answer line for the PID. -/
  | pidNotFound (pid : GoString)
  /-- `"geçersiz veri formatı"`: too few data bytes for a known PID. -/
  | badDataFormat
  /-- A `*strconv.NumError` of `ParseInt` on the token `num`. -/
  | numError (num : GoString) (kind : NumErrKind)
  deriving DecidableEq

/-- A Go `(string, error)` pair; `none` is the `nil` error. -/
abbrev Result := GoString × Option Err

/-! ## PID decoder -/

/-- The method `ConvertPIDValue` of the source. -/
def ConvertPIDValue (pid : GoString) (values : List GoString) : Result :=
  if pid = "0D".toList then
    match values with
    | v0 :: _ =>
      match ParseInt v0 16 64 with
      | (_, some k) => ([], some (.numError v0 k))
      | (speed, none) => (fmtInt speed ++ " km/h".toList, none)
    | [] => ([], some .badDataFormat)
  else if pid = "0C".toList then
    match values with
    | v0 :: v1 :: _ =>
      let a := (ParseInt v0 16 64).1
      let b := (ParseInt v1 16 64).1
      let rpm4 := float64OfInt64 (wrap64 (wrap64 (a * 256) + b))
      (fmtQuarterF0 rpm4 ++ " RPM".toList, none)
    | _ => ([], some .badDataFormat)
  else if pid = "05".toList then
    match values with
    | v0 :: _ =>
      let temp := (ParseInt v0 16 64).1
      let celsius := wrap64 (temp - 40)
      (fmtInt celsius ++ " °C".toList, none)
    | [] => ([], some .badDataFormat)
  else (joinSpace values, none)

/-! ## Answer-line search -/

/-- The `for _, line := range lines` loop of `ParseOBDResponse`. -/
def parseLines (pid : GoString) : List GoString → Result
  | [] => ([], some (.pidNotFound pid))
  | raw :: rest =>
    let line := trimSpace raw
    if ("41 ".toList ++ pid) <+: line ∧ 3 ≤ (fields line).length then
      ConvertPIDValue pid ((fields line).drop 2)
    else if pid <:+: line ∧ 10 ≤ goLen line then (line, none)
    else parseLines pid rest

/-- The method `ParseOBDResponse` of the source. -/
def ParseOBDResponse (response pid : GoString) : Result :=
  parseLines pid (splitLines response)

/-! ## Transport and command/response engine -/

/-- What the peer does once the pending lines are exhausted. -/
inductive StreamEnd
  /-- The connection stays open and nothing more arrives: `Scan` blocks. -/
  | silent
  /-- End of stream: `Scan` returns `false` and `Err` is `nil`. -/
  | closed
  /-- Read failure: `Scan` returns `false` and `Err` is the cause. -/
  | broken (cause : GoString)
  deriving DecidableEq

/-- The `bufio.Scanner` over the connection: the lines still to be
delivered, each with the time `Scan` blocks before returning it, and what
follows the last of them. -/
structure Scanner where
  lines : List (Nat × GoString)
  ending : StreamEnd
  deriving DecidableEq

/-- The `bufio.Writer` over the connection: its sticky error. -/
structure Writer where
  err : Option GoString
  deriving DecidableEq

/-- The socket: the bytes written to the peer so far and the error, if any,
that a write to it returns. -/
structure Conn where
  wire : GoString
  fault : Option GoString
  deriving DecidableEq

/-- The struct `ELM37Client`; `timeout` is `config.Timeout` in clock ticks
and `conn = none` is the `nil` connection. -/
structure ELM37Client where
  conn : Option Conn
  timeout : Nat
  scanner : Scanner
  writer : Writer
  deriving DecidableEq

/-- The outcome of a call on the client. -/
inductive Outcome
  /-- The call never returns. -/
  | hangs
  /-- The call returns `res` and leaves the client in state `client`. -/
  | returns (res : Result) (client : ELM37Client)
  deriving DecidableEq

/-- The read loop of `SendCommand`: `elapsed` is the time since `time.After`
was armed and `response` the builder. Each iteration first polls the timer,
then calls the blocking `Scan`. Returns the result and the lines left in the
scanner, or `none` when `Scan` blocks for ever. -/
def readLoop (timeout : Nat) (ending : StreamEnd) :
    List (Nat × GoString) → Nat → GoString → Option (Result × List (Nat × GoString))
  | [], elapsed, response =>
    if timeout ≤ elapsed then some ((response, some .timedOut), [])
    else
      match ending with
      | .silent => none
      | .closed => some ((response, none), [])
      | .broken cause => some ((response, some (.readFailed cause)), [])
  | (wait, line) :: rest, elapsed, response =>
    if timeout ≤ elapsed then some ((response, some .timedOut), (wait, line) :: rest)
    else
      let response := response ++ (line ++ ['\n'])
      if ">".toList <:+: line ∨ "OK".toList <:+: line ∨ "ERROR".toList <:+: line then
        some ((response, none), rest)
      else if "SEARCHING...".toList <:+: line ∨ "STOPPED".toList <:+: line then
        some ((response, none), rest)
      else readLoop timeout ending rest (elapsed + wait) response

/-- The method `SendCommand` of the source. The writer buffer holds 4096
bytes, so a longer command reaches the socket inside `WriteString`. -/
def SendCommand (c : ELM37Client) (command : GoString) : Outcome :=
  match c.conn with
  | none => .returns ([], some .noConnection) c
  | some conn =>
    let fullCommand := command ++ ['\r', '\n']
    match c.writer.err with
    | some cause => .returns ([], some (.sendFailed cause)) c
    | none =>
      match conn.fault with
      | some cause =>
        let c1 := { c with writer := { err := some cause } }
        if 4096 < goLen fullCommand then .returns ([], some (.sendFailed cause)) c1
        else .returns ([], some (.flushFailed cause)) c1
      | none =>
        let c1 := { c with conn := some { conn with wire := conn.wire ++ fullCommand } }
        match readLoop c.timeout c.scanner.ending c.scanner.lines 0 [] with
        | none => .hangs
        | some (res, rest) =>
          .returns res { c1 with scanner := { c.scanner with lines := rest } }

/-- The method `ReadOBDData` of the source. -/
def ReadOBDData (c : ELM37Client) (pid : GoString) : Outcome :=
  if goLen pid ≠ 2 then .returns ([], some (.invalidPID pid)) c
  else
    match SendCommand c ("01 ".toList ++ pid) with
    | .hangs => .hangs
    | .returns (_, some e) c1 => .returns ([], some e) c1
    | .returns (response, none) c1 => .returns (ParseOBDResponse response pid) c1

/-! ## Specification vocabulary -/

/-- The hexadecimal digits, upper and lower case, with their values. -/
def hexDigits : List (Char × Nat) :=
  [('0', 0), ('1', 1), ('2', 2), ('3', 3), ('4', 4), ('5', 5), ('6', 6), ('7', 7),
   ('8', 8), ('9', 9), ('A', 10), ('B', 11), ('C', 12), ('D', 13), ('E', 14), ('F', 15),
   ('a', 10), ('b', 11), ('c', 12), ('d', 13), ('e', 14), ('f', 15)]

/-- The token `tok` is exactly two hexadecimal digits denoting the byte `v`. -/
def IsHexByte (tok : GoString) (v : Nat) : Prop :=
  ∃ p ∈ hexDigits, ∃ q ∈ hexDigits, tok = [p.1, q.1] ∧ v = 16 * p.2 + q.2

instance (tok : GoString) (v : Nat) : Decidable (IsHexByte tok v) := by
  unfold IsHexByte
  infer_instance

/-- A data token: non-empty and free of white space. -/
def IsToken (t : GoString) : Prop :=
  t ≠ [] ∧ ∀ c ∈ t, isSpace c = false

instance (t : GoString) : Decidable (IsToken t) := by
  unfold IsToken
  infer_instance

/-- The strict test of `ParseOBDResponse` on a trimmed line: it starts with
`"41 " + pid` and has at least three fields. -/
def IsAnswerLine (pid line : GoString) : Prop :=
  ("41 ".toList ++ pid) <+: line ∧ 3 ≤ (fields line).length

instance (pid line : GoString) : Decidable (IsAnswerLine pid line) := by
  unfold IsAnswerLine
  infer_instance

/-- The loose test of `ParseOBDResponse` on a trimmed line: it contains the
PID code and is at least 10 bytes long. -/
def IsLooseMatch (pid line : GoString) : Prop :=
  pid <:+: line ∧ 10 ≤ goLen line

instance (pid line : GoString) : Decidable (IsLooseMatch pid line) := by
  unfold IsLooseMatch
  infer_instance

/-- The terminator substrings of the wire protocol. -/
def terminators : List GoString :=
  [">".toList, "OK".toList, "ERROR".toList, "SEARCHING...".toList, "STOPPED".toList]

/-- The line contains one of the terminator substrings. -/
def IsTerminator (line : GoString) : Prop :=
  ∃ t ∈ terminators, t <:+: line

instance (line : GoString) : Decidable (IsTerminator line) := by
  unfold IsTerminator
  infer_instance

/-! ## Lemmas on `strconv.ParseInt` and the arithmetic -/

set_option maxRecDepth 100000 in
theorem parseInt_hexDigits :
    ∀ p ∈ hexDigits, ∀ q ∈ hexDigits,
      ParseInt [p.1, q.1] 16 64 = (((16 * p.2 + q.2 : Nat) : Int), none) := by
  decide

theorem hexDigits_lt : ∀ p ∈ hexDigits, p.2 < 16 := by
  decide

theorem hexDigits_not_space : ∀ p ∈ hexDigits, isSpace p.1 = false := by
  decide

theorem parseInt_hexByte {tok : GoString} {v : Nat} (h : IsHexByte tok v) :
    ParseInt tok 16 64 = ((v : Int), none) ∧ v < 256 := by
  obtain ⟨p, hp, q, hq, rfl, rfl⟩ := h
  refine ⟨parseInt_hexDigits p hp q hq, ?_⟩
  have h1 := hexDigits_lt p hp
  have h2 := hexDigits_lt q hq
  omega

theorem wrap64_small {x : Int} (h1 : -(2 ^ 63) ≤ x) (h2 : x < 2 ^ 63) : wrap64 x = x := by
  unfold wrap64
  norm_num at h1 h2 ⊢
  omega

theorem bitLen_le (fuel : Nat) : ∀ (k m : Nat), m < 2 ^ k → bitLen fuel m ≤ k := by
  induction fuel with
  | zero => intro k m _; simp [bitLen]
  | succ fuel ih =>
    intro k m hm
    unfold bitLen
    split
    · omega
    · rename_i hne
      cases k with
      | zero => simp at hm; omega
      | succ k =>
        have : m / 2 < 2 ^ k := by
          rw [pow_succ] at hm
          omega
        have := ih k (m / 2) this
        omega

theorem float64OfInt64_small {v : Int} (h : v.natAbs < 2 ^ 53) : float64OfInt64 v = v := by
  unfold float64OfInt64
  have := bitLen_le 64 53 v.natAbs h
  simp [this]

/-! ## Unit conversion -/

/-- C6: for PID `0D`, a non-empty token list whose first token is two
hexadecimal digits of value `S` decodes without error to `"<S> km/h"`, `S`
in decimal. -/
theorem speed_decode (tok : GoString) (S : Nat) (rest : List GoString)
    (h : IsHexByte tok S) :
    ConvertPIDValue "0D".toList (tok :: rest) = (Nat.toDigits 10 S ++ " km/h".toList, none) := by
  obtain ⟨hp, -⟩ := parseInt_hexByte h
  simp [ConvertPIDValue, hp, fmtInt]

theorem speed_decode_witness :
    IsHexByte "5A".toList 90 ∧
      ConvertPIDValue "0D".toList ["5A".toList] = ("90 km/h".toList, none) :=
  ⟨by decide, speed_decode "5A".toList 90 [] (by decide)⟩

/-- C7: for PID `05`, a non-empty token list whose first token is two
hexadecimal digits of value `T` decodes without error to `"<T - 40> °C"`,
the difference written as a signed decimal between -40 and 215. -/
theorem coolant_decode (tok : GoString) (T : Nat) (rest : List GoString)
    (h : IsHexByte tok T) :
    T ≤ 255 ∧
    ConvertPIDValue "05".toList (tok :: rest) =
      ((if T < 40 then '-' :: Nat.toDigits 10 (40 - T) else Nat.toDigits 10 (T - 40))
        ++ " °C".toList, none) := by
  obtain ⟨hp, hT⟩ := parseInt_hexByte h
  refine ⟨by omega, ?_⟩
  have hw : wrap64 ((T : Int) - 40) = (T : Int) - 40 :=
    wrap64_small (by norm_num; omega) (by norm_num; omega)
  have hd : "05".toList ≠ "0D".toList := by decide
  have hc : "05".toList ≠ "0C".toList := by decide
  simp only [ConvertPIDValue, hd, hc, if_false, if_true, hp, hw, fmtInt]
  by_cases hlt : T < 40
  · have h1 : ((T : Int) - 40) < 0 := by omega
    have h2 : ((T : Int) - 40).natAbs = 40 - T := by omega
    simp [hlt, h1, h2]
  · have h1 : ¬ ((T : Int) - 40) < 0 := by omega
    have h2 : ((T : Int) - 40).toNat = T - 40 := by omega
    simp [hlt, h1, h2]

theorem coolant_decode_witness :
    (IsHexByte "7B".toList 123 ∧
      ConvertPIDValue "05".toList ["7B".toList] = ("83 °C".toList, none)) ∧
    (IsHexByte "00".toList 0 ∧
      ConvertPIDValue "05".toList ["00".toList] = ("-40 °C".toList, none)) :=
  ⟨⟨by decide, (coolant_decode "7B".toList 123 [] (by decide)).2⟩,
   ⟨by decide, (coolant_decode "00".toList 0 [] (by decide)).2⟩⟩

/-- C1 (as stated, refuted): tokens `1F 88` decode to `"2018 RPM"`, not to
`"2016 RPM"`: `(31 * 256 + 136) / 4 = 2018`. -/
theorem rpm_example_not_2016 :
    IsHexByte "1F".toList 31 ∧ IsHexByte "88".toList 136 ∧
    ConvertPIDValue "0C".toList ["1F".toList, "88".toList] = ("2018 RPM".toList, none) ∧
    ConvertPIDValue "0C".toList ["1F".toList, "88".toList] ≠ ("2016 RPM".toList, none) := by
  decide

/-- C1 (amended): for PID `0C`, two leading tokens of two hexadecimal digits
each, of values `A` and `B`, followed by any tokens, decode without error to
`"<n> RPM"` where `n` is `(A * 256 + B) / 4` rounded to the nearest integer,
ties to even. -/
theorem rpm_decode (ta tb : GoString) (A B : Nat) (rest : List GoString)
    (ha : IsHexByte ta A) (hb : IsHexByte tb B) :
    ∃ n : Nat,
      ConvertPIDValue "0C".toList (ta :: tb :: rest) = (Nat.toDigits 10 n ++ " RPM".toList, none) ∧
      ((4 * n : Int) - (A * 256 + B)).natAbs ≤ 2 ∧
      (((4 * n : Int) - (A * 256 + B)).natAbs = 2 → n % 2 = 0) := by
  obtain ⟨hpa, hA⟩ := parseInt_hexByte ha
  obtain ⟨hpb, hB⟩ := parseInt_hexByte hb
  have hw1 : wrap64 ((A : Int) * 256) = (A : Int) * 256 :=
    wrap64_small (by norm_num; omega) (by norm_num; omega)
  have hw2 : wrap64 ((A : Int) * 256 + B) = (A : Int) * 256 + B :=
    wrap64_small (by norm_num; omega) (by norm_num; omega)
  have hv : ((A : Int) * 256 + B).natAbs = A * 256 + B := by omega
  have hf : float64OfInt64 ((A : Int) * 256 + B) = (A : Int) * 256 + B :=
    float64OfInt64_small (by rw [hv]; norm_num; omega)
  have hnn : ¬ ((A : Int) * 256 + B) < 0 := by omega
  have hd : "0C".toList ≠ "0D".toList := by decide
  refine ⟨if 2 < (A * 256 + B) % 4 ∨ ((A * 256 + B) % 4 = 2 ∧ (A * 256 + B) / 4 % 2 = 1)
      then (A * 256 + B) / 4 + 1 else (A * 256 + B) / 4, ?_, ?_, ?_⟩
  · simp only [ConvertPIDValue, hd, if_false, if_true, hpa, hpb, hw1, hw2, hf, fmtQuarterF0,
      hv, hnn]
  · split <;> omega
  · split <;> omega

theorem rpm_decode_witness :
    IsHexByte "1F".toList 31 ∧ IsHexByte "88".toList 136 ∧
    ∃ n : Nat,
      ConvertPIDValue "0C".toList ["1F".toList, "88".toList] =
        (Nat.toDigits 10 n ++ " RPM".toList, none) ∧
      ((4 * n : Int) - ((31 : Nat) * 256 + (136 : Nat))).natAbs ≤ 2 ∧
      (((4 * n : Int) - ((31 : Nat) * 256 + (136 : Nat))).natAbs = 2 → n % 2 = 0) :=
  ⟨by decide, by decide, rpm_decode "1F".toList "88".toList 31 136 [] (by decide) (by decide)⟩

/-- C5 (as stated, refuted): PID `0D` with the single token `ZZ` meets the
byte-count requirement and still returns an error, the `ParseInt` one. -/
theorem speed_bad_token_errors :
    ConvertPIDValue "0D".toList ["ZZ".toList] =
      ([], some (.numError "ZZ".toList .badSyntax)) := by
  decide

/-- C5 (amended): `ConvertPIDValue` returns the "bad data format" error
exactly for `0D` or `05` without a token and `0C` with fewer than two; for
`0D` with a token it returns the error of `ParseInt` on the first token, if
there is one; on every other input it returns no error. -/
theorem convert_error_cases (pid : GoString) (values : List GoString) :
    (ConvertPIDValue pid values).2 =
      if (pid = "0D".toList ∧ values.length < 1) ∨ (pid = "05".toList ∧ values.length < 1) ∨
          (pid = "0C".toList ∧ values.length < 2) then some .badDataFormat
      else if pid = "0D".toList then
        (ParseInt (values.headD []) 16 64).2.map (Err.numError (values.headD []))
      else none := by
  have hcd : "0C".toList ≠ "0D".toList := by decide
  have h5d : "05".toList ≠ "0D".toList := by decide
  have h5c : "05".toList ≠ "0C".toList := by decide
  unfold ConvertPIDValue
  by_cases h1 : pid = "0D".toList
  · subst h1
    cases values with
    | nil => simp
    | cons v0 vs =>
      rcases hp : ParseInt v0 16 64 with ⟨n, _ | k⟩ <;> simp [hp]
  · by_cases h2 : pid = "0C".toList
    · subst h2
      rcases values with _ | ⟨v0, _ | ⟨v1, vs⟩⟩ <;> simp [hcd]
      rw [if_neg (by omega)]
    · by_cases h3 : pid = "05".toList
      · subst h3
        cases values with
        | nil => simp [h5d, h5c]
        | cons v0 vs => simp [h5d, h5c]
      · have h1c : ¬ pid = ['0', 'D'] := h1
        have h2c : ¬ pid = ['0', 'C'] := h2
        have h3c : ¬ pid = ['0', '5'] := h3
        simp [h1c, h2c, h3c]

/-! ## Lemmas on lines and fields -/

theorem trimSpace_within (l : GoString) : trimSpace l <:+: l :=
  ( List.rdropWhile_prefix isSpace _).isInfix.trans (List.dropWhile_suffix isSpace).isInfix

theorem joinSpace_singleton (t : GoString) : joinSpace [t] = t := by
  simp [joinSpace, List.intercalate, List.intersperse]

theorem joinSpace_cons_cons (a b : GoString) (r : List GoString) :
    joinSpace (a :: b :: r) = a ++ ' ' :: joinSpace (b :: r) := by
  simp [joinSpace, List.intercalate, List.intersperse]

theorem fieldsAux_token (t : GoString) :
    ∀ (cur rest : GoString), (∀ c ∈ t, isSpace c = false) →
      fieldsAux cur (t ++ rest) = fieldsAux (cur ++ t) rest := by
  induction t with
  | nil => intro cur rest _; simp
  | cons c t ih =>
    intro cur rest h
    have hc : isSpace c = false := h c (List.mem_cons_self _ _)
    have ht : ∀ d ∈ t, isSpace d = false := fun d hd => h d (List.mem_cons_of_mem _ hd)
    have hstep : fieldsAux cur (c :: (t ++ rest)) = fieldsAux (cur ++ [c]) (t ++ rest) := by
      simp [fieldsAux, hc]
    rw [List.cons_append, hstep, ih (cur ++ [c]) rest ht]
    simp

theorem fields_joinSpace (ts : List GoString) (h : ∀ t ∈ ts, IsToken t) :
    fields (joinSpace ts) = ts := by
  unfold fields
  induction ts with
  | nil => simp [joinSpace, List.intercalate, fieldsAux]
  | cons t r ih =>
    obtain ⟨hne, hsp⟩ := h t (List.mem_cons_self _ _)
    have hr : ∀ u ∈ r, IsToken u := fun u hu => h u (List.mem_cons_of_mem _ hu)
    cases r with
    | nil =>
      rw [joinSpace_singleton]
      have := fieldsAux_token t [] [] hsp
      simp only [List.append_nil, List.nil_append] at this
      rw [this]
      simp [fieldsAux, hne]
    | cons u r =>
      rw [joinSpace_cons_cons, fieldsAux_token t [] _ hsp]
      have hs : isSpace ' ' = true := by decide
      simp only [List.nil_append, fieldsAux, hs, if_true, hne, if_false]
      rw [ih hr]

theorem joinSpace_last (ts : List GoString) (hne : ts ≠ []) (h : ∀ t ∈ ts, IsToken t) :
    ∃ (w : GoString) (c : Char), joinSpace ts = w ++ [c] ∧ isSpace c = false := by
  induction ts with
  | nil => exact absurd rfl hne
  | cons t r ih =>
    obtain ⟨htne, hsp⟩ := h t (List.mem_cons_self _ _)
    have hr : ∀ u ∈ r, IsToken u := fun u hu => h u (List.mem_cons_of_mem _ hu)
    cases r with
    | nil =>
      refine ⟨t.dropLast, t.getLast htne, ?_, hsp _ (List.getLast_mem htne)⟩
      rw [joinSpace_singleton, List.dropLast_append_getLast]
    | cons u r =>
      obtain ⟨w, c, hw, hc⟩ := ih (by simp) hr
      refine ⟨t ++ ' ' :: w, c, ?_, hc⟩
      rw [joinSpace_cons_cons, hw]
      simp

theorem trimSpace_joinSpace (ts : List GoString) (hne : ts ≠ []) (h : ∀ t ∈ ts, IsToken t) :
    trimSpace (joinSpace ts) = joinSpace ts := by
  obtain ⟨w, c, hw, hc⟩ := joinSpace_last ts hne h
  have hhead : (joinSpace ts).dropWhile isSpace = joinSpace ts := by
    cases ts with
    | nil => exact absurd rfl hne
    | cons t r =>
      obtain ⟨htne, hsp⟩ := h t (List.mem_cons_self _ _)
      cases t with
      | nil => exact absurd rfl htne
      | cons d t =>
        have hd : isSpace d = false := hsp d (List.mem_cons_self _ _)
        cases r with
        | nil => rw [joinSpace_singleton]; simp [List.dropWhile, hd]
        | cons u r => rw [joinSpace_cons_cons]; simp [List.dropWhile, hd]
  unfold trimSpace
  rw [hhead, hw, List.rdropWhile_concat_neg]
  simp [hc]

theorem parseLines_skip (pid : GoString) (pre rest : List GoString)
    (h : ∀ l ∈ pre, ¬ IsAnswerLine pid (trimSpace l) ∧ ¬ IsLooseMatch pid (trimSpace l)) :
    parseLines pid (pre ++ rest) = parseLines pid rest := by
  induction pre with
  | nil => rfl
  | cons l pre ih =>
    obtain ⟨h1, h2⟩ := h l (List.mem_cons_self _ _)
    have hpre := fun m hm => h m (List.mem_cons_of_mem _ hm)
    unfold IsAnswerLine at h1
    unfold IsLooseMatch at h2
    simp only [List.cons_append, parseLines, h1, h2, if_false]
    exact ih hpre

theorem parseLines_answer (pid L : GoString) (rest : List GoString)
    (h : IsAnswerLine pid (trimSpace L)) :
    parseLines pid (L :: rest) = ConvertPIDValue pid ((fields (trimSpace L)).drop 2) := by
  unfold IsAnswerLine at h
  simp only [parseLines, h, and_self, if_true]

theorem parseLines_loose (pid L : GoString) (rest : List GoString)
    (h1 : ¬ IsAnswerLine pid (trimSpace L)) (h2 : IsLooseMatch pid (trimSpace L)) :
    parseLines pid (L :: rest) = (trimSpace L, none) := by
  unfold IsAnswerLine at h1
  unfold IsLooseMatch at h2
  simp only [parseLines, h1, h2, and_self, if_true, if_false]

theorem parseLines_none (pid : GoString) (ls : List GoString)
    (h : ∀ l ∈ ls, ¬ IsAnswerLine pid (trimSpace l) ∧ ¬ IsLooseMatch pid (trimSpace l)) :
    parseLines pid ls = ([], some (.pidNotFound pid)) := by
  have := parseLines_skip pid ls [] h
  rw [List.append_nil] at this
  rw [this]
  rfl

/-! ## Locating the answer line -/

/-- C2 (as stated, refuted): a header line that merely contains the PID
code and comes before the line starting with `"41 0C"` is returned raw; the
later answer line is not decoded. -/
theorem header_line_wins :
    (∃ l ∈ splitLines "7E8 04 41 0C 1F 88\n41 0C 1F 88".toList,
      ("41 ".toList ++ "0C".toList) <+: l) ∧
    ParseOBDResponse "7E8 04 41 0C 1F 88\n41 0C 1F 88".toList "0C".toList =
      ("7E8 04 41 0C 1F 88".toList, none) ∧
    ParseOBDResponse "7E8 04 41 0C 1F 88\n41 0C 1F 88".toList "0C".toList ≠
      ConvertPIDValue "0C".toList ["1F".toList, "88".toList] := by
  decide

/-- C2 (amended): the lines are scanned once, in order, each trimmed of
surrounding white space. When a line starts with `"41 " + pid` and has at
least three fields, and no earlier line passes that strict test or the loose
test (contains the PID code, at least 10 bytes), the result is
`ConvertPIDValue` on the fields of that line from index 2 onward. -/
theorem first_answer_line_decoded (response pid : GoString) (pre : List GoString)
    (L : GoString) (post : List GoString)
    (hsplit : splitLines response = pre ++ L :: post)
    (hpre : ∀ l ∈ pre, ¬ IsAnswerLine pid (trimSpace l) ∧ ¬ IsLooseMatch pid (trimSpace l))
    (hL : IsAnswerLine pid (trimSpace L)) :
    ParseOBDResponse response pid = ConvertPIDValue pid ((fields (trimSpace L)).drop 2) := by
  unfold ParseOBDResponse
  rw [hsplit, parseLines_skip pid pre _ hpre, parseLines_answer pid L post hL]

theorem first_answer_line_decoded_witness :
    ParseOBDResponse "NO\n41 0C 1F 88 \n>".toList "0C".toList =
      ConvertPIDValue "0C".toList ["1F".toList, "88".toList] :=
  first_answer_line_decoded "NO\n41 0C 1F 88 \n>".toList "0C".toList ["NO".toList]
    "41 0C 1F 88 ".toList [">".toList] (by decide) (by decide) (by decide)

/-- C8 (as stated, refuted): no line starts with `"41 0C"`, the first line
contains `0C` and has 19 characters, yet the value returned is not that raw
line: its trailing space is gone. -/
theorem loose_line_not_verbatim :
    splitLines "7E8 04 41 0C 1F 88 \n".toList = ["7E8 04 41 0C 1F 88 ".toList, []] ∧
    (∀ l ∈ splitLines "7E8 04 41 0C 1F 88 \n".toList,
      ¬ ("41 ".toList ++ "0C".toList) <+: l) ∧
    ("0C".toList <:+: "7E8 04 41 0C 1F 88 ".toList ∧ 10 ≤ goLen "7E8 04 41 0C 1F 88 ".toList) ∧
    ParseOBDResponse "7E8 04 41 0C 1F 88 \n".toList "0C".toList =
      ("7E8 04 41 0C 1F 88".toList, none) ∧
    ParseOBDResponse "7E8 04 41 0C 1F 88 \n".toList "0C".toList ≠
      ("7E8 04 41 0C 1F 88 ".toList, none) := by
  decide

/-- C8 (amended): when no line, trimmed of surrounding white space, starts
with `"41 " + pid`, the first line that after trimming contains the PID code
and has at least 10 bytes is returned, trimmed, with no error; and when no
line does, the result is the empty value with the "PID not found" error. -/
theorem loose_fallback (response pid : GoString)
    (hno : ∀ l ∈ splitLines response, ¬ ("41 ".toList ++ pid) <+: trimSpace l) :
    (∀ (pre : List GoString) (L : GoString) (post : List GoString),
      splitLines response = pre ++ L :: post →
      (∀ l ∈ pre, ¬ IsLooseMatch pid (trimSpace l)) →
      IsLooseMatch pid (trimSpace L) →
      ParseOBDResponse response pid = (trimSpace L, none)) ∧
    ((∀ l ∈ splitLines response, ¬ IsLooseMatch pid (trimSpace l)) →
      ParseOBDResponse response pid = ([], some (.pidNotFound pid))) := by
  have hstrict : ∀ l ∈ splitLines response, ¬ IsAnswerLine pid (trimSpace l) :=
    fun l hl hA => hno l hl hA.1
  constructor
  · intro pre L post hsplit hpre hL
    have hpre2 : ∀ l ∈ pre, ¬ IsAnswerLine pid (trimSpace l) ∧ ¬ IsLooseMatch pid (trimSpace l) := by
      intro l hl
      exact ⟨hstrict l (by rw [hsplit]; simp [hl]), hpre l hl⟩
    have hLs : ¬ IsAnswerLine pid (trimSpace L) := hstrict L (by rw [hsplit]; simp)
    unfold ParseOBDResponse
    rw [hsplit, parseLines_skip pid pre _ hpre2, parseLines_loose pid L post hLs hL]
  · intro hnone
    unfold ParseOBDResponse
    exact parseLines_none pid _ (fun l hl => ⟨hstrict l hl, hnone l hl⟩)

theorem loose_fallback_witness :
    ParseOBDResponse "SEARCHING\n 7E8 04 41 0C 1F 88 \n>".toList "0C".toList =
      ("7E8 04 41 0C 1F 88".toList, none) ∧
    ParseOBDResponse "NO DATA\n>".toList "0C".toList =
      ([], some (.pidNotFound "0C".toList)) :=
  ⟨(loose_fallback "SEARCHING\n 7E8 04 41 0C 1F 88 \n>".toList "0C".toList (by decide)).1
      ["SEARCHING".toList] " 7E8 04 41 0C 1F 88 ".toList [">".toList]
      (by decide) (by decide) (by decide),
   (loose_fallback "NO DATA\n>".toList "0C".toList (by decide)).2 (by decide)⟩

/-- C4: a two-hex-digit PID code other than `0D`, `0C` and `05` with a
non-empty token list decodes without error to the tokens joined by single
spaces; and `ParseOBDResponse` returns that same string on every response
whose first line containing the PID code is the answer line
`41 <pid> t1 ... tn`. -/
theorem unknown_pid_passthrough (pid : GoString) (tokens : List GoString)
    (hpid : ∃ v, IsHexByte pid v)
    (hD : pid ≠ "0D".toList) (hC : pid ≠ "0C".toList) (h5 : pid ≠ "05".toList)
    (hne : tokens ≠ []) :
    ConvertPIDValue pid tokens = (joinSpace tokens, none) ∧
    ∀ (response : GoString) (pre post : List GoString),
      (∀ t ∈ tokens, IsToken t) →
      splitLines response = pre ++ joinSpace ("41".toList :: pid :: tokens) :: post →
      (∀ l ∈ pre, ¬ pid <:+: l) →
      ParseOBDResponse response pid = (joinSpace tokens, none) := by
  have hconv : ConvertPIDValue pid tokens = (joinSpace tokens, none) := by
    have hDc : ¬ pid = ['0', 'D'] := hD
    have hCc : ¬ pid = ['0', 'C'] := hC
    have h5c : ¬ pid = ['0', '5'] := h5
    simp [ConvertPIDValue, hDc, hCc, h5c]
  refine ⟨hconv, ?_⟩
  intro response pre post htok hsplit hpre
  obtain ⟨v, p, hp, q, hq, rfl, -⟩ := hpid
  have hpidtok : IsToken [p.1, q.1] := by
    refine ⟨by simp, ?_⟩
    intro c hc
    simp only [List.mem_cons, List.mem_singleton, List.not_mem_nil, or_false] at hc
    rcases hc with rfl | rfl
    · exact hexDigits_not_space p hp
    · exact hexDigits_not_space q hq
  have h41 : IsToken "41".toList := by decide
  have hall : ∀ t ∈ "41".toList :: [p.1, q.1] :: tokens, IsToken t := by
    intro t ht
    simp only [List.mem_cons] at ht
    rcases ht with rfl | rfl | ht
    · exact h41
    · exact hpidtok
    · exact htok t ht
  have htrim := trimSpace_joinSpace _ (by simp) hall
  have hfields := fields_joinSpace _ hall
  obtain ⟨t1, ts, rfl⟩ := List.exists_cons_of_ne_nil hne
  have hanswer : IsAnswerLine [p.1, q.1]
      (trimSpace (joinSpace ("41".toList :: [p.1, q.1] :: t1 :: ts))) := by
    rw [htrim]
    refine ⟨?_, ?_⟩
    · rw [joinSpace_cons_cons, joinSpace_cons_cons]
      exact ⟨' ' :: joinSpace (t1 :: ts), by simp⟩
    · rw [hfields]
      simp
  have hskip : ∀ l ∈ pre, ¬ IsAnswerLine [p.1, q.1] (trimSpace l) ∧
      ¬ IsLooseMatch [p.1, q.1] (trimSpace l) := by
    intro l hl
    have hnot : ¬ [p.1, q.1] <:+: trimSpace l :=
      fun hin => hpre l hl (hin.trans (trimSpace_within l))
    refine ⟨fun hA => hnot ?_, fun hLm => hnot hLm.1⟩
    obtain ⟨t, ht⟩ := hA.1
    exact ⟨"41 ".toList, t, by rw [← ht]⟩
  unfold ParseOBDResponse
  rw [hsplit, parseLines_skip _ pre _ hskip, parseLines_answer _ _ post hanswer, htrim, hfields]
  exact hconv

theorem unknown_pid_passthrough_witness :
    ConvertPIDValue "0A".toList ["1F".toList, "88".toList] = ("1F 88".toList, none) ∧
    ParseOBDResponse "SEARCHING\n41 0A 1F 88\n>".toList "0A".toList = ("1F 88".toList, none) :=
  ⟨(unknown_pid_passthrough "0A".toList ["1F".toList, "88".toList] ⟨10, by decide⟩
      (by decide) (by decide) (by decide) (by decide)).1,
   (unknown_pid_passthrough "0A".toList ["1F".toList, "88".toList] ⟨10, by decide⟩
      (by decide) (by decide) (by decide) (by decide)).2
      "SEARCHING\n41 0A 1F 88\n>".toList ["SEARCHING".toList] [">".toList]
      (by decide) (by decide) (by decide)⟩

/-! ## Command/response engine -/

theorem isTerminator_iff (line : GoString) :
    IsTerminator line ↔
      ((">".toList <:+: line ∨ "OK".toList <:+: line ∨ "ERROR".toList <:+: line) ∨
        ("SEARCHING...".toList <:+: line ∨ "STOPPED".toList <:+: line)) := by
  unfold IsTerminator terminators
  simp only [List.mem_cons, List.mem_singleton, List.not_mem_nil, or_false, exists_eq_or_imp,
    exists_eq_left]
  tauto

theorem readLoop_pre (timeout : Nat) (ending : StreamEnd) (pre : List (Nat × GoString)) :
    ∀ (tail : List (Nat × GoString)) (elapsed : Nat) (response : GoString),
      (∀ l ∈ pre, ¬ IsTerminator l.2) →
      elapsed + (pre.map Prod.fst).sum < timeout →
      readLoop timeout ending (pre ++ tail) elapsed response =
        readLoop timeout ending tail (elapsed + (pre.map Prod.fst).sum)
          (response ++ (pre.map (fun l => l.2 ++ ['\n'])).flatten) := by
  induction pre with
  | nil => intro tail elapsed response _ _; simp
  | cons l pre ih =>
    intro tail elapsed response hpre htime
    obtain ⟨wait, line⟩ := l
    have hl : ¬ IsTerminator line := hpre (wait, line) (List.mem_cons_self _ _)
    rw [isTerminator_iff, not_or] at hl
    have hrest : ∀ m ∈ pre, ¬ IsTerminator m.2 := fun m hm => hpre m (List.mem_cons_of_mem _ hm)
    simp only [List.map_cons, List.sum_cons] at htime
    have hnow : ¬ timeout ≤ elapsed := by omega
    have hstep : readLoop timeout ending ((wait, line) :: (pre ++ tail)) elapsed response =
        readLoop timeout ending (pre ++ tail) (elapsed + wait) (response ++ (line ++ ['\n'])) := by
      simp only [readLoop, hnow, hl.1, hl.2, if_false]
    rw [List.cons_append, hstep, ih tail (elapsed + wait) _ hrest (by omega)]
    simp [Nat.add_assoc]

theorem readLoop_stop (timeout : Nat) (ending : StreamEnd) (wait : Nat) (line : GoString)
    (rest : List (Nat × GoString)) (elapsed : Nat) (response : GoString)
    (hterm : IsTerminator line) (hnow : ¬ timeout ≤ elapsed) :
    readLoop timeout ending ((wait, line) :: rest) elapsed response =
      some ((response ++ (line ++ ['\n']), none), rest) := by
  rw [isTerminator_iff] at hterm
  simp only [readLoop, hnow, if_false]
  split_ifs with h1 h2
  · rfl
  · rfl
  · exact absurd hterm (not_or.mpr ⟨h1, h2⟩)

/-- C3: on a connected client whose write succeeds, when the scanner
delivers the lines `pre` without a terminator substring and then either a
first terminator line (`stop`), or the end of the stream, and the timeout
does not elapse meanwhile, `SendCommand` returns no error and the lines read,
the terminator line included, each followed by a line feed; the command has
been written with CR LF and the remaining lines stay in the scanner. -/
theorem send_command_returns (c : ELM37Client) (conn : Conn) (command : GoString)
    (pre stop rest : List (Nat × GoString))
    (hconn : c.conn = some conn) (hwriter : c.writer.err = none) (hfault : conn.fault = none)
    (hlines : c.scanner.lines = pre ++ stop ++ rest)
    (hpre : ∀ l ∈ pre, ¬ IsTerminator l.2)
    (hstop : (∃ t, stop = [t] ∧ IsTerminator t.2) ∨
      (stop = [] ∧ rest = [] ∧ c.scanner.ending = .closed))
    (htime : ((pre ++ stop).map Prod.fst).sum < c.timeout) :
    SendCommand c command =
      .returns (((pre ++ stop).map (fun l => l.2 ++ ['\n'])).flatten, none)
        { c with
          conn := some { conn with wire := conn.wire ++ (command ++ ['\r', '\n']) }
          scanner := { c.scanner with lines := rest } } := by
  have hsum : 0 + (pre.map Prod.fst).sum < c.timeout := by
    simp only [List.map_append, List.sum_append] at htime
    omega
  have hloop := readLoop_pre c.timeout c.scanner.ending pre (stop ++ rest) 0 [] hpre hsum
  have hnow : ¬ c.timeout ≤ 0 + (pre.map Prod.fst).sum := by omega
  have hfinal : readLoop c.timeout c.scanner.ending (pre ++ (stop ++ rest)) 0 [] =
      some ((((pre ++ stop).map (fun l => l.2 ++ ['\n'])).flatten, none), rest) := by
    rw [hloop]
    rcases hstop with ⟨t, rfl, ht⟩ | ⟨rfl, rfl, hend⟩
    · obtain ⟨wait, line⟩ := t
      rw [List.singleton_append, readLoop_stop _ _ _ _ _ _ _ ht hnow]
      simp
    · rw [hend]
      have hlt : (pre.map Prod.fst).sum < c.timeout := by omega
      simp [readLoop, hlt]
  simp only [SendCommand, hconn, hwriter, hfault, hlines, List.append_assoc, hfinal]

theorem send_command_returns_witness :
    SendCommand
        { conn := some { wire := [], fault := none }, timeout := 5,
          scanner := { lines := [(1, "41 0C 1F 88".toList), (2, ">".toList), (0, "x".toList)],
                       ending := .silent },
          writer := { err := none } } "01 0C".toList =
      .returns ("41 0C 1F 88\n>\n".toList, none)
        { conn := some { wire := "01 0C\r\n".toList, fault := none }, timeout := 5,
          scanner := { lines := [(0, "x".toList)], ending := .silent },
          writer := { err := none } } ∧
    SendCommand
        { conn := some { wire := [], fault := none }, timeout := 5,
          scanner := { lines := [], ending := .closed },
          writer := { err := none } } "ATZ".toList =
      .returns ([], none)
        { conn := some { wire := "ATZ\r\n".toList, fault := none }, timeout := 5,
          scanner := { lines := [], ending := .closed },
          writer := { err := none } } :=
  ⟨send_command_returns _ { wire := [], fault := none } "01 0C".toList
      [(1, "41 0C 1F 88".toList)] [(2, ">".toList)] [(0, "x".toList)]
      rfl rfl rfl rfl (by decide) (Or.inl ⟨_, rfl, by decide⟩) (by decide),
   send_command_returns _ { wire := [], fault := none } "ATZ".toList [] [] []
      rfl rfl rfl rfl (by decide) (Or.inr ⟨rfl, rfl, rfl⟩) (by decide)⟩

/-- C9: with a PID code whose length is not 2, `ReadOBDData` returns the
empty value with the invalid-PID error and leaves the client as it was:
nothing is written and connection, writer and scanner are unchanged. -/
theorem read_invalid_pid (c : ELM37Client) (pid : GoString) (h : goLen pid ≠ 2) :
    ReadOBDData c pid = .returns ([], some (.invalidPID pid)) c := by
  simp [ReadOBDData, h]

theorem read_invalid_pid_witness :
    goLen "0C1".toList ≠ 2 ∧
    ReadOBDData
        { conn := some { wire := [], fault := none }, timeout := 5,
          scanner := { lines := [(1, ">".toList)], ending := .silent },
          writer := { err := none } } "0C1".toList =
      .returns ([], some (.invalidPID "0C1".toList))
        { conn := some { wire := [], fault := none }, timeout := 5,
          scanner := { lines := [(1, ">".toList)], ending := .silent },
          writer := { err := none } } :=
  ⟨by decide, read_invalid_pid _ "0C1".toList (by decide)⟩

/-- C10 (the code at the failing input): the peer sends the line `NO DATA`,
which holds no terminator substring, then stays silent with the connection
open. The timer has not fired when the loop polls it, the next `Scan` blocks,
and `SendCommand` never returns: no timeout error, however long the wait. -/
theorem send_command_hangs_on_silent_stream :
    ¬ IsTerminator "NO DATA".toList ∧
    SendCommand
        { conn := some { wire := [], fault := none }, timeout := 5,
          scanner := { lines := [(1, "NO DATA".toList)], ending := .silent },
          writer := { err := none } } "01 0C".toList = .hangs := by
  decide

end ELM37
